import Mathlib

/-!
Shallow embedding of the hyperlocal feed engine of the goodnight_market
repository: trade-match lifecycle (src/services/models/trade_match.py),
listing price drops and ranking inputs (src/services/models/listing.py,
src/worker/feed_tasks.py), neighborhood heat index
(src/services/models/heat_index.py), H3 radius expansion
(src/services/core/h3_geo.py), the activity-ribbon expiry filter
(src/services/routers/feed_v2.py, src/services/models/feed_event.py), and
the trade-match discovery pass (src/worker/feed_tasks.py).

Python floats and Decimals are modelled as rationals, timestamps as
rationals on an abstract clock, database rows as Lean structures, and
SQLAlchemy queries as list traversals in table order.  Python truthiness
on optional numbers and strings (None, 0 and the empty string are falsy)
is modelled explicitly.
-/

set_option autoImplicit false

/-- Match status constants of class MatchStatus (trade_match.py). -/
inductive MStatus where
  | suggested
  | viewed
  | pending
  | accepted
  | completed
  | declined
  | expired
  deriving DecidableEq, Repr

/-- Match type constants of class MatchType (trade_match.py). -/
inductive MatchType where
  | two_way
  | three_way
  deriving DecidableEq, Repr

/-- One entry of the TradeMatch.participants JSON list (trade_match.py). -/
structure Participant where
  user_id : Nat
  offers_listing_id : Nat
  wants_listing_id : Nat
  offers_title : String
  wants_title : String
  deriving DecidableEq, Repr

/-- A TradeMatch row (trade_match.py).  The acceptances JSON dict is an
association list from user id to the accepted flag of that user's entry;
Python treats a missing dict (None) and an empty dict alike, so the empty
list stands for both.  Times are rationals (days). -/
structure TradeMatch where
  match_type : MatchType
  participants : List Participant
  user_ids : List Nat
  listing_ids : List Nat
  h3_common : Option Nat
  locality_score : Int
  max_distance_miles : Option Rat
  match_score : Rat
  value_balance : Rat
  status : MStatus
  acceptances : List (Nat × Bool)
  expires_at : Option Rat
  completed_at : Option Rat
  deriving DecidableEq, Repr

/-- Python dict assignment d[k] = v on an association list. -/
def dictSet (d : List (Nat × Bool)) (k : Nat) (v : Bool) : List (Nat × Bool) :=
  (d.filter (fun p => p.1 ≠ k)) ++ [(k, v)]

/-- Python d.get(k, default).get("accepted", False) on the acceptances dict. -/
def dictGet (d : List (Nat × Bool)) (k : Nat) : Bool :=
  match d.find? (fun p => p.1 = k) with
  | some p => p.2
  | none => false

namespace TradeMatch

/-- The all-parties-accepted check inside record_acceptance
(trade_match.py lines 163 to 166). -/
def allAccepted (m : TradeMatch) : Bool :=
  m.user_ids.all (fun uid => dictGet m.acceptances uid)

/-- TradeMatch.record_view (trade_match.py lines 147 to 150). -/
def record_view (m : TradeMatch) (_user_id : Nat) : TradeMatch :=
  if m.status = MStatus.suggested then { m with status := MStatus.viewed } else m

/-- TradeMatch.record_acceptance (trade_match.py lines 152 to 171). -/
def record_acceptance (m : TradeMatch) (user_id : Nat) : TradeMatch :=
  let acc := dictSet m.acceptances user_id true
  let st :=
    if (m.user_ids.all (fun uid => dictGet acc uid)) then MStatus.accepted
    else if m.status = MStatus.suggested ∨ m.status = MStatus.viewed then MStatus.pending
    else m.status
  { m with acceptances := acc, status := st }

/-- TradeMatch.record_decline (trade_match.py lines 173 to 184); the
declined entry carries accepted = False. -/
def record_decline (m : TradeMatch) (user_id : Nat) : TradeMatch :=
  { m with acceptances := dictSet m.acceptances user_id false,
           status := MStatus.declined }

/-- TradeMatch.complete (trade_match.py lines 186 to 189). -/
def complete (m : TradeMatch) (now : Rat) : TradeMatch :=
  { m with status := MStatus.completed, completed_at := some now }

/-- The expires_at less-than-now filter of cleanup_expired_feed_data
(feed_tasks.py line 437). -/
def pastExpiry (m : TradeMatch) (now : Rat) : Bool :=
  match m.expires_at with | some e => decide (e < now) | none => false

/-- The expiry update of cleanup_expired_feed_data (feed_tasks.py lines
436 to 443): matches past expires_at in status SUGGESTED, VIEWED or
PENDING are set to EXPIRED. -/
def expire (m : TradeMatch) (now : Rat) : TradeMatch :=
  if m.pastExpiry now
      ∧ (m.status = MStatus.suggested ∨ m.status = MStatus.viewed
          ∨ m.status = MStatus.pending) then
    { m with status := MStatus.expired }
  else m

/-- TradeMatch.create_two_way (trade_match.py lines 243 to 281); status,
scores and acceptances take their column defaults, expires_at is seven
days out. -/
def create_two_way (now : Rat) (user_a_id user_b_id : Nat)
    (listing_a_id listing_b_id : Nat) (listing_a_title listing_b_title : String)
    (h3_common : Option Nat) (locality_score : Int)
    (max_distance : Option Rat) : TradeMatch :=
  { match_type := MatchType.two_way,
    participants := [
      { user_id := user_a_id, offers_listing_id := listing_a_id,
        wants_listing_id := listing_b_id, offers_title := listing_a_title,
        wants_title := listing_b_title },
      { user_id := user_b_id, offers_listing_id := listing_b_id,
        wants_listing_id := listing_a_id, offers_title := listing_b_title,
        wants_title := listing_a_title }],
    user_ids := [user_a_id, user_b_id],
    listing_ids := [listing_a_id, listing_b_id],
    h3_common := h3_common,
    locality_score := locality_score,
    max_distance_miles := max_distance,
    match_score := 0,
    value_balance := 0,
    status := MStatus.suggested,
    acceptances := [],
    expires_at := some (now + 7),
    completed_at := none }

end TradeMatch

/-- The terminal statuses of the spec state machine: COMPLETED, DECLINED,
EXPIRED. -/
def terminalStatus (s : MStatus) : Bool :=
  s = MStatus.completed ∨ s = MStatus.declined ∨ s = MStatus.expired

/-- A concrete fresh match used in counterexamples and witnesses. -/
def mFresh : TradeMatch :=
  TradeMatch.create_two_way 0 1 2 10 20 "a" "b" none 0 none

/-- C1: the claim asserts that no operation changes a terminal status.
Counterexample: complete a fresh match (status COMPLETED, terminal), then
record_decline moves it to DECLINED, leaving a terminal state. -/
theorem c1_terminal_escape_counterexample :
    terminalStatus (TradeMatch.complete mFresh 1).status = true ∧
    (TradeMatch.record_decline (TradeMatch.complete mFresh 1) 1).status
      = MStatus.declined ∧
    (TradeMatch.record_decline (TradeMatch.complete mFresh 1) 1).status
      ≠ (TradeMatch.complete mFresh 1).status := by
  refine ⟨rfl, rfl, ?_⟩
  decide

/-- C1 (amended): record_view and expiry only ever move SUGGESTED to
VIEWED, or SUGGESTED/VIEWED/PENDING to EXPIRED, so they never move the
status backward and never leave a terminal state; but record_decline
always sets DECLINED, complete always sets COMPLETED, and
record_acceptance sets ACCEPTED whenever afterwards every participant has
accepted, each regardless of the current status, so those three
operations can change a terminal status. -/
theorem c1_amended_status_transitions (m : TradeMatch) (u : Nat) (t : Rat) :
    ((TradeMatch.record_view m u).status = m.status ∨
      (m.status = MStatus.suggested ∧
        (TradeMatch.record_view m u).status = MStatus.viewed)) ∧
    ((TradeMatch.expire m t).status = m.status ∨
      ((m.status = MStatus.suggested ∨ m.status = MStatus.viewed
          ∨ m.status = MStatus.pending) ∧
        (TradeMatch.expire m t).status = MStatus.expired)) ∧
    (TradeMatch.record_decline m u).status = MStatus.declined ∧
    (TradeMatch.complete m t).status = MStatus.completed ∧
    ((TradeMatch.record_acceptance m u).allAccepted = true →
      (TradeMatch.record_acceptance m u).status = MStatus.accepted) := by
  refine ⟨?_, ?_, rfl, rfl, ?_⟩
  · by_cases h : m.status = MStatus.suggested
    · exact Or.inr ⟨h, by simp [TradeMatch.record_view, h]⟩
    · exact Or.inl (by simp [TradeMatch.record_view, h])
  · by_cases h : m.pastExpiry t
        ∧ (m.status = MStatus.suggested ∨ m.status = MStatus.viewed
            ∨ m.status = MStatus.pending)
    · exact Or.inr ⟨h.2, by simp [TradeMatch.expire, h]⟩
    · exact Or.inl (by simp [TradeMatch.expire, h])
  · intro h
    have hall : m.user_ids.all
        (fun uid => dictGet (dictSet m.acceptances u true) uid) = true := by
      simpa [TradeMatch.record_acceptance, TradeMatch.allAccepted] using h
    simp [TradeMatch.record_acceptance, hall]

/-- C1 (amended) witness at a concrete match: the acceptance hypothesis is
discharged on a fresh two-party match after the other party accepted. -/
theorem c1_amended_status_transitions_witness :
    (TradeMatch.record_acceptance
        (TradeMatch.record_acceptance mFresh 2) 1).status = MStatus.accepted := by
  have h := c1_amended_status_transitions (TradeMatch.record_acceptance mFresh 2) 1 0
  exact h.2.2.2.2 (by decide)

/-- Reading a key back from a Python dict after an assignment: the
assigned key yields the new value, every other key is unchanged. -/
theorem dictGet_dictSet (d : List (Nat × Bool)) (u k : Nat) (v : Bool) :
    dictGet (dictSet d u v) k = if k = u then v else dictGet d k := by
  induction d with
  | nil =>
    by_cases h : k = u
    · simp [dictGet, dictSet, List.find?, h]
    · have h2 : ¬u = k := fun hc => h hc.symm
      simp [dictGet, dictSet, List.find?, h, h2]
  | cons a d ih =>
    by_cases hau : a.1 = u
    · have : dictSet (a :: d) u v = dictSet d u v := by
        simp [dictSet, List.filter_cons, hau]
      rw [this, ih]
      by_cases hk : k = u
      · simp [hk]
      · have hak : ¬a.1 = k := by
          intro hc
          exact hk (hc ▸ hau.symm ▸ rfl)
        simp [hk, dictGet, List.find?, hak]
    · have : dictSet (a :: d) u v = a :: dictSet d u v := by
        simp [dictSet, List.filter_cons, hau]
      rw [this]
      by_cases hak : a.1 = k
      · have hk : ¬k = u := fun hc => hau (hak.symm ▸ hc)
        simp [dictGet, List.find?, hak, hk]
      · simp only [dictGet, List.find?] at ih ⊢
        simp only [hak, decide_False]
        simpa [dictGet] using ih

/-- Recording an acceptance never unsets another user's acceptance, so
the all-accepted check is monotone under record_acceptance. -/
theorem allAccepted_mono (ids : List Nat) (d : List (Nat × Bool)) (u : Nat)
    (h : ids.all (fun uid => dictGet d uid) = true) :
    ids.all (fun uid => dictGet (dictSet d u true) uid) = true := by
  rw [List.all_eq_true] at h ⊢
  intro x hx
  rw [dictGet_dictSet]
  by_cases hxu : x = u
  · simp [hxu]
  · simpa [hxu] using h x hx

/-- Supporting invariant: on every state satisfying it, each lifecycle
operation preserves the property that a match in status ACCEPTED has all
participants accepted.  This justifies the consistency hypothesis of the
C7 theorem on every match the system can produce. -/
theorem accepted_implies_allAccepted_preserved (m : TradeMatch) (u : Nat) (t : Rat)
    (hinv : m.status = MStatus.accepted → m.allAccepted = true) :
    ((TradeMatch.record_view m u).status = MStatus.accepted →
      (TradeMatch.record_view m u).allAccepted = true) ∧
    ((TradeMatch.record_acceptance m u).status = MStatus.accepted →
      (TradeMatch.record_acceptance m u).allAccepted = true) ∧
    ((TradeMatch.record_decline m u).status = MStatus.accepted →
      (TradeMatch.record_decline m u).allAccepted = true) ∧
    ((TradeMatch.complete m t).status = MStatus.accepted →
      (TradeMatch.complete m t).allAccepted = true) ∧
    ((TradeMatch.expire m t).status = MStatus.accepted →
      (TradeMatch.expire m t).allAccepted = true) := by
  refine ⟨?_, ?_, ?_, ?_, ?_⟩
  · intro h
    unfold TradeMatch.record_view at h ⊢
    by_cases hs : m.status = MStatus.suggested
    · simp [hs] at h
    · simp only [hs, if_neg, ite_false] at h ⊢
      exact hinv h
  · intro h
    by_cases hall : m.user_ids.all
        (fun uid => dictGet (dictSet m.acceptances u true) uid) = true
    · simp [TradeMatch.record_acceptance, TradeMatch.allAccepted, hall]
    · exfalso
      unfold TradeMatch.record_acceptance at h
      simp only [hall] at h
      by_cases hsv : m.status = MStatus.suggested ∨ m.status = MStatus.viewed
      · simp [hsv] at h
      · simp only [hsv, ite_false, if_neg] at h
        simp only [Bool.not_eq_true] at hall
        exact absurd (allAccepted_mono m.user_ids m.acceptances u (hinv h))
          (by simp [hall])
  · intro h
    simp [TradeMatch.record_decline] at h
  · intro h
    simp [TradeMatch.complete] at h
  · intro h
    unfold TradeMatch.expire at h ⊢
    by_cases hc : m.pastExpiry t
        ∧ (m.status = MStatus.suggested ∨ m.status = MStatus.viewed
            ∨ m.status = MStatus.pending)
    · simp [hc] at h
    · simp only [hc, ite_false, if_neg] at h ⊢
      exact hinv h

/-- C7: on a non-terminal match with a consistent acceptances map, an
acceptance recorded by a participant sets the status to ACCEPTED exactly
when afterwards every user in user_ids has a recorded acceptance, and
otherwise a partial acceptance moves a SUGGESTED or VIEWED match to
PENDING. -/
theorem c7_record_acceptance_characterization (m : TradeMatch) (u : Nat)
    (hu : u ∈ m.user_ids)
    (hnt : terminalStatus m.status = false)
    (hinv : m.status = MStatus.accepted → m.allAccepted = true) :
    ((TradeMatch.record_acceptance m u).status = MStatus.accepted ↔
      (TradeMatch.record_acceptance m u).allAccepted = true) ∧
    ((TradeMatch.record_acceptance m u).allAccepted = false →
      (m.status = MStatus.suggested ∨ m.status = MStatus.viewed) →
      (TradeMatch.record_acceptance m u).status = MStatus.pending) := by
  have hres : (TradeMatch.record_acceptance m u).allAccepted
      = m.user_ids.all (fun uid => dictGet (dictSet m.acceptances u true) uid) := by
    simp [TradeMatch.record_acceptance, TradeMatch.allAccepted]
  by_cases hall : m.user_ids.all
      (fun uid => dictGet (dictSet m.acceptances u true) uid) = true
  · constructor
    · rw [hres, hall]
      simp [TradeMatch.record_acceptance, hall]
    · intro hfalse
      rw [hres, hall] at hfalse
      exact absurd hfalse (by simp)
  · have hstat : (TradeMatch.record_acceptance m u).status =
        (if m.status = MStatus.suggested ∨ m.status = MStatus.viewed
          then MStatus.pending else m.status) := by
      simp [TradeMatch.record_acceptance, hall]
    constructor
    · rw [hstat, hres]
      simp only [Bool.not_eq_true] at hall
      rw [hall]
      constructor
      · intro h
        exfalso
        by_cases hsv : m.status = MStatus.suggested ∨ m.status = MStatus.viewed
        · simp [hsv] at h
        · simp only [hsv, ite_false, if_neg] at h
          exact absurd (allAccepted_mono m.user_ids m.acceptances u (hinv h))
            (by simp [hall])
      · intro h
        exact absurd h (by simp)
    · intro _ hsv
      rw [hstat]
      simp [hsv]

/-- C7 witness: first acceptance on a fresh viewed two-party match moves
it to PENDING, and the iff reports not-yet-accepted. -/
theorem c7_record_acceptance_characterization_witness :
    ¬((TradeMatch.record_acceptance (TradeMatch.record_view mFresh 1) 1).status
        = MStatus.accepted) ∧
    (TradeMatch.record_acceptance (TradeMatch.record_view mFresh 1) 1).status
        = MStatus.pending := by
  have h := c7_record_acceptance_characterization
    (TradeMatch.record_view mFresh 1) 1 (by decide) (by decide)
    (by intro hc; exact absurd hc (by decide))
  constructor
  · intro hc
    have := h.1.mp hc
    exact absurd this (by decide)
  · exact h.2 (by decide) (by decide)

/-- Listing status constants of class ListingStatus (listing.py). -/
inductive LStatus where
  | active
  | pending
  | sold
  | traded
  | expired
  | deleted
  deriving DecidableEq, Repr

/-- Trade intent constants of class ListingIntent (listing.py). -/
inductive TIntent where
  | sale
  | trade
  | both
  deriving DecidableEq, Repr

/-- Python truthiness of an optional number: None and 0 are falsy. -/
def truthyQ (o : Option Rat) : Bool :=
  match o with
  | some q => q ≠ 0
  | none => false

/-- Python truthiness of an optional string: None and the empty string
are falsy. -/
def truthyS (o : Option String) : Bool :=
  match o with
  | some s => s ≠ ""
  | none => false

/-- A Listing row (listing.py), restricted to the columns the verified
operations read.  Nullable text columns are options; the non-null text
columns are options too so that Python truthiness checks (which treat an
empty string like an absent one) stay explicit.  created_at is in hours
on an abstract clock. -/
structure Listing where
  id : Nat
  user_id : Nat
  title : String
  brand : Option String
  sku : Option String
  size : Option String
  condition : Option String
  status : LStatus
  trade_intent : TIntent
  h3_index : Nat
  price : Option Rat
  original_price : Option Rat
  view_count : Nat
  save_count : Nat
  message_count : Nat
  authenticity_score : Nat
  is_verified : Bool
  created_at : Rat
  deriving DecidableEq, Repr

/-- A listing with every optional column absent and all counters zero,
used to build concrete instances. -/
def baseListing : Listing :=
  { id := 0, user_id := 0, title := "", brand := none, sku := none,
    size := none, condition := none, status := LStatus.active,
    trade_intent := TIntent.sale, h3_index := 0, price := none,
    original_price := none, view_count := 0, save_count := 0,
    message_count := 0, authenticity_score := 0, is_verified := false,
    created_at := 0 }

namespace Listing

/-- Listing.drop_price (listing.py lines 191 to 198): returns the updated
listing and the Python return value. -/
def drop_price (l : Listing) (new_price : Rat) : Listing × Bool :=
  if truthyQ l.price ∧ new_price < l.price.getD 0 then
    let l1 := if ¬ truthyQ l.original_price
      then { l with original_price := l.price } else l
    ({ l1 with price := some new_price }, true)
  else (l, false)

/-- Listing.get_price_drop_percent (listing.py lines 218 to 222). -/
def get_price_drop_percent (l : Listing) : Rat :=
  if truthyQ l.original_price ∧ truthyQ l.price then
    ((l.original_price.getD 0 - l.price.getD 0) / l.original_price.getD 0) * 100
  else 0

end Listing

/-- C10: the claim says drop_price returns True whenever the listing has
a price and new_price is strictly below it.  Counterexample: a listing
priced exactly 0 (a price the schema allows) with a lower offered price;
Python truthiness treats the zero price as absent, so drop_price returns
False and changes nothing. -/
theorem c10_drop_price_counterexample :
    ({ baseListing with price := some 0 } : Listing).price = some 0 ∧
    ((-1 : Rat) < 0) ∧
    (Listing.drop_price { baseListing with price := some 0 } (-1)).2 = false ∧
    (Listing.drop_price { baseListing with price := some 0 } (-1)).1
      = { baseListing with price := some 0 } := by
  refine ⟨rfl, by norm_num, ?_, ?_⟩ <;> decide

/-- A successful first drop stores the pre-drop price as original_price
and the new price as price. -/
theorem drop_price_first_success (l : Listing) (np : Rat)
    (h : (Listing.drop_price l np).2 = true)
    (ho : truthyQ l.original_price = false) :
    (Listing.drop_price l np).1.original_price = l.price ∧
    (Listing.drop_price l np).1.price = some np := by
  unfold Listing.drop_price at h ⊢
  by_cases hg : truthyQ l.price ∧ np < l.price.getD 0
  · simp [hg, ho]
  · simp [hg] at h

/-- A drop never overwrites a truthy original_price. -/
theorem drop_price_keeps_truthy_original (l : Listing) (np : Rat)
    (ho : truthyQ l.original_price = true) :
    (Listing.drop_price l np).1.original_price = l.original_price := by
  unfold Listing.drop_price
  by_cases hg : truthyQ l.price ∧ np < l.price.getD 0
  · simp [hg, ho]
  · simp [hg]

/-- C10 (amended): drop_price returns True exactly when the listing has a
nonzero price and new_price is strictly below it; on False the listing is
unchanged; on the first successful drop original_price is set to the
pre-drop price, and a truthy original_price is never overwritten, so
later successful drops keep the original price. -/
theorem c10_amended_drop_price (l : Listing) (np : Rat) :
    ((Listing.drop_price l np).2 = true ↔
      ∃ p, l.price = some p ∧ p ≠ 0 ∧ np < p) ∧
    ((Listing.drop_price l np).2 = false → (Listing.drop_price l np).1 = l) ∧
    ((Listing.drop_price l np).2 = true → truthyQ l.original_price = false →
      (Listing.drop_price l np).1.original_price = l.price ∧
      (Listing.drop_price l np).1.price = some np) ∧
    ((Listing.drop_price l np).2 = true → truthyQ l.original_price = true →
      (Listing.drop_price l np).1.original_price = l.original_price ∧
      (Listing.drop_price l np).1.price = some np) ∧
    ((Listing.drop_price l np).2 = true → truthyQ l.original_price = false →
      ∀ np2 : Rat,
        (Listing.drop_price (Listing.drop_price l np).1 np2).1.original_price
          = l.price) := by
  constructor
  · constructor
    · intro h
      unfold Listing.drop_price at h
      by_cases hg : truthyQ l.price ∧ np < l.price.getD 0
      · rcases hp : l.price with _ | p
        · rw [hp] at hg; simp [truthyQ] at hg
        · refine ⟨p, rfl, ?_, ?_⟩
          · have := hg.1; rw [hp] at this; simpa [truthyQ] using this
          · have := hg.2; rw [hp] at this; simpa using this
      · simp [hg] at h
    · rintro ⟨p, hp, hpz, hlt⟩
      have hg : truthyQ l.price ∧ np < l.price.getD 0 := by
        constructor
        · simp [truthyQ, hp, hpz]
        · simp [hp, hlt]
      simp [Listing.drop_price, hg]
  refine ⟨?_, ?_, ?_, ?_⟩
  · intro h
    unfold Listing.drop_price at h ⊢
    by_cases hg : truthyQ l.price ∧ np < l.price.getD 0
    · simp [hg] at h
    · simp [hg]
  · exact fun h ho => drop_price_first_success l np h ho
  · intro h ho
    refine ⟨drop_price_keeps_truthy_original l np ho, ?_⟩
    unfold Listing.drop_price at h ⊢
    by_cases hg : truthyQ l.price ∧ np < l.price.getD 0
    · simp [hg]
    · simp [hg] at h
  · intro h ho np2
    have hfirst := drop_price_first_success l np h ho
    have htr : truthyQ (Listing.drop_price l np).1.original_price = true := by
      rw [hfirst.1]
      unfold Listing.drop_price at h
      by_cases hg : truthyQ l.price ∧ np < l.price.getD 0
      · exact hg.1
      · simp [hg] at h
    rw [drop_price_keeps_truthy_original (Listing.drop_price l np).1 np2 htr]
    exact hfirst.1

/-- C10 (amended) witness: a listing priced 100 dropped to 60 succeeds,
records original_price 100, and a further drop to 40 keeps it. -/
theorem c10_amended_drop_price_witness :
    (∃ p, ({ baseListing with price := some 100 } : Listing).price = some p
      ∧ p ≠ 0 ∧ (60 : Rat) < p) ∧
    (Listing.drop_price { baseListing with price := some 100 } 60).2 = true ∧
    (Listing.drop_price
      (Listing.drop_price { baseListing with price := some 100 } 60).1
        40).1.original_price = some 100 := by
  have h := c10_amended_drop_price { baseListing with price := some 100 } 60
  refine ⟨⟨100, rfl, by norm_num, by norm_num⟩, ?_, ?_⟩
  · exact h.1.mpr ⟨100, rfl, by norm_num, by norm_num⟩
  · exact h.2.2.2.2 (h.1.mpr ⟨100, rfl, by norm_num, by norm_num⟩) (by decide) 40

/-- NeighborhoodHeatIndex.compute_heat_score (heat_index.py lines 119 to
134): weighted sum of the five velocity columns with None treated as 0
(Python `x or 0`, which also maps 0 to 0), capped at 100. -/
def compute_heat_score (save_v dm_v trade_request_v listing_v view_v : Option Rat) :
    Rat :=
  min 100
    ((save_v.getD 0) * 25 + (dm_v.getD 0) * 30 + (trade_request_v.getD 0) * 20
      + (listing_v.getD 0) * 15 + (view_v.getD 0) * 10)

/-- The heat-level bucketing of compute_heat_score (heat_index.py lines
137 to 144). -/
def heat_level_of (score : Rat) : String :=
  if score ≥ 80 then "fire"
  else if score ≥ 60 then "hot"
  else if score ≥ 30 then "warm"
  else "cold"

/-- C4: the heat score equals min(100, 25 save + 30 dm + 20 trade_request
+ 15 listing + 10 view) with missing velocities as 0, lies in the
interval from 0 to 100 for nonnegative inputs, and is non-decreasing in
each velocity with the others held fixed. -/
theorem c4_heat_score_formula_bounds_monotone
    (v1 v2 v3 v4 v5 : Option Rat) (a b : Rat) (hab : a ≤ b) :
    (compute_heat_score v1 v2 v3 v4 v5
      = min 100 (25 * v1.getD 0 + 30 * v2.getD 0 + 20 * v3.getD 0
          + 15 * v4.getD 0 + 10 * v5.getD 0)) ∧
    (compute_heat_score none v2 v3 v4 v5
      = compute_heat_score (some 0) v2 v3 v4 v5) ∧
    (0 ≤ v1.getD 0 → 0 ≤ v2.getD 0 → 0 ≤ v3.getD 0 → 0 ≤ v4.getD 0 →
      0 ≤ v5.getD 0 →
      0 ≤ compute_heat_score v1 v2 v3 v4 v5 ∧
        compute_heat_score v1 v2 v3 v4 v5 ≤ 100) ∧
    compute_heat_score (some a) v2 v3 v4 v5
      ≤ compute_heat_score (some b) v2 v3 v4 v5 ∧
    compute_heat_score v1 (some a) v3 v4 v5
      ≤ compute_heat_score v1 (some b) v3 v4 v5 ∧
    compute_heat_score v1 v2 (some a) v4 v5
      ≤ compute_heat_score v1 v2 (some b) v4 v5 ∧
    compute_heat_score v1 v2 v3 (some a) v5
      ≤ compute_heat_score v1 v2 v3 (some b) v5 ∧
    compute_heat_score v1 v2 v3 v4 (some a)
      ≤ compute_heat_score v1 v2 v3 v4 (some b) := by
  refine ⟨?_, rfl, ?_, ?_, ?_, ?_, ?_, ?_⟩
  · unfold compute_heat_score
    congr 1
    ring
  · intro h1 h2 h3 h4 h5
    constructor
    · apply le_min (by norm_num)
      positivity
    · exact min_le_left _ _
  all_goals
    unfold compute_heat_score
    apply min_le_min le_rfl
    simp only [Option.getD_some]
    gcongr

/-- C4 witness: concrete velocities discharging the nonnegativity and
monotonicity hypotheses. -/
theorem c4_heat_score_witness :
    (1 : Rat) ≤ 2 ∧
    (0 ≤ ((some 1 : Option Rat)).getD 0 ∧
      0 ≤ compute_heat_score (some 1) (some 1) (some 1) (some 1) (some 1) ∧
      compute_heat_score (some 1) (some 1) (some 1) (some 1) (some 1) ≤ 100) ∧
    compute_heat_score (some 1) (some 1) (some 1) (some 1) (some 1)
      ≤ compute_heat_score (some 2) (some 1) (some 1) (some 1) (some 1) := by
  have h := c4_heat_score_formula_bounds_monotone
    (some 1) (some 1) (some 1) (some 1) (some 1) 1 2 (by norm_num)
  have hb := h.2.2.1 (by norm_num) (by norm_num) (by norm_num)
    (by norm_num) (by norm_num)
  exact ⟨by norm_num, ⟨by norm_num, hb.1, hb.2⟩, h.2.2.2.1⟩

/-- A FeedEvent row (feed_event.py), restricted to the columns the
activity-ribbon query reads. -/
structure FeedEvent where
  event_type : String
  h3_index_r7 : Nat
  created_at : Rat
  expires_at : Option Rat
  deriving DecidableEq, Repr

/-- The non-expired filter of get_activity_ribbon (feed_v2.py lines 281
to 287): expires_at is null or greater than the query time. -/
def ribbonNonExpired (e : FeedEvent) (now : Rat) : Bool :=
  match e.expires_at with
  | none => true
  | some t => decide (now < t)

/-- FeedEvent.is_expired (feed_event.py lines 152 to 156); a datetime is
always truthy in Python, so only None short-circuits to False. -/
def FeedEvent.is_expired (e : FeedEvent) (now : Rat) : Bool :=
  match e.expires_at with
  | none => false
  | some t => decide (t < now)

/-- C9: an event without expires_at passes the non-expired activity
filter at every query time, and is_expired returns False on it. -/
theorem c9_no_expiry_never_excluded (e : FeedEvent) (now : Rat)
    (h : e.expires_at = none) :
    ribbonNonExpired e now = true ∧ FeedEvent.is_expired e now = false := by
  unfold ribbonNonExpired FeedEvent.is_expired
  rw [h]
  exact ⟨rfl, rfl⟩

/-- C9 witness at a concrete event and query time. -/
theorem c9_no_expiry_never_excluded_witness :
    ribbonNonExpired
      { event_type := "NEW_LISTING", h3_index_r7 := 0, created_at := 0,
        expires_at := none } 5 = true ∧
    FeedEvent.is_expired
      { event_type := "NEW_LISTING", h3_index_r7 := 0, created_at := 0,
        expires_at := none } 5 = false :=
  c9_no_expiry_never_excluded
    { event_type := "NEW_LISTING", h3_index_r7 := 0, created_at := 0,
      expires_at := none } 5 rfl

/-- Python max(xs, default=1) or 1, as used for the normalization maxima
of compute_listing_rankings (feed_tasks.py lines 64 to 66): the default
covers an empty batch, the `or 1` maps a zero maximum to 1. -/
def maxDefault1 (xs : List Nat) : Nat :=
  match xs.max? with
  | none => 1
  | some m => if m = 0 then 1 else m

/-- The engagement component of compute_listing_rankings (feed_tasks.py
lines 72 to 75): save, message and view counts normalized by the batch
maxima and weighted 15, 10, 5. -/
def engagement_score (batch : List Listing) (l : Listing) : Rat :=
  let max_saves := maxDefault1 (batch.map (fun x => x.save_count))
  let max_messages := maxDefault1 (batch.map (fun x => x.message_count))
  let max_views := maxDefault1 (batch.map (fun x => x.view_count))
  ((l.save_count : Rat) / max_saves) * 15
    + ((l.message_count : Rat) / max_messages) * 10
    + ((l.view_count : Rat) / max_views) * 5

/-- The demand component (feed_tasks.py lines 78 to 81): the cell's heat
score scaled to 0 to 20, or 0 when the cell has no heat-index record.
The heat-index table is modelled as a lookup from cell to heat score. -/
def demand_score (heat : Nat → Option Rat) (l : Listing) : Rat :=
  match heat l.h3_index with
  | some hs => hs / 100 * 20
  | none => 0

/-- The freshness component (feed_tasks.py lines 84 to 85): linear decay
from 10 to 0 over 168 hours of age, floored at 0. -/
def freshness_score (now : Rat) (l : Listing) : Rat :=
  let age_hours := now - l.created_at
  max 0 (10 * (1 - age_hours / 168))

/-- The authenticity component (feed_tasks.py line 88). -/
def auth_score (l : Listing) : Rat :=
  (l.authenticity_score : Rat) / 10

/-- The verified bonus (feed_tasks.py line 91). -/
def verified_bonus (l : Listing) : Rat :=
  if l.is_verified then 5 else 0

/-- The price-drop bonus (feed_tasks.py lines 94 to 98): only when both
original price and price are truthy and the drop exceeds 10 percent. -/
def price_drop_bonus (l : Listing) : Rat :=
  if truthyQ l.original_price ∧ truthyQ l.price then
    let drop_percent := l.get_price_drop_percent
    if drop_percent > 10 then min 5 (drop_percent / 5) else 0
  else 0

/-- The total rank score of one listing in a ranking batch (feed_tasks.py
lines 101 to 108). -/
def rank_score (batch : List Listing) (now : Rat) (heat : Nat → Option Rat)
    (l : Listing) : Rat :=
  engagement_score batch l + demand_score heat l + freshness_score now l
    + auth_score l + verified_bonus l + price_drop_bonus l

/-- The ranking pass compute_listing_rankings (feed_tasks.py lines 70 to
110) over a batch: each listing is assigned its rank score. -/
def compute_listing_rankings (batch : List Listing) (now : Rat)
    (heat : Nat → Option Rat) : List (Listing × Rat) :=
  batch.map (fun l => (l, rank_score batch now heat l))

/-- C3: in any ranking batch, a listing with zero engagement counters,
authenticity 100, verified, age zero, no original price and no heat-index
record for its cell is assigned rank score 25, decomposed as 0 engagement
plus 0 demand plus 10 freshness plus 10 authenticity plus 5 verified plus
0 price-drop bonus. -/
theorem c3_scenario_rank_score_25 (batch : List Listing) (now : Rat)
    (heat : Nat → Option Rat) (l : Listing)
    (hmem : l ∈ batch)
    (hsave : l.save_count = 0) (hmsg : l.message_count = 0)
    (hview : l.view_count = 0) (hauth : l.authenticity_score = 100)
    (hver : l.is_verified = true) (hage : l.created_at = now)
    (horig : l.original_price = none) (hheat : heat l.h3_index = none) :
    engagement_score batch l = 0 ∧ demand_score heat l = 0 ∧
    freshness_score now l = 10 ∧ auth_score l = 10 ∧
    verified_bonus l = 5 ∧ price_drop_bonus l = 0 ∧
    rank_score batch now heat l = 25 ∧
    (l, 25) ∈ compute_listing_rankings batch now heat := by
  have heng : engagement_score batch l = 0 := by
    unfold engagement_score
    rw [hsave, hmsg, hview]
    norm_num
  have hdem : demand_score heat l = 0 := by
    unfold demand_score
    rw [hheat]
  have hfresh : freshness_score now l = 10 := by
    unfold freshness_score
    rw [hage]
    norm_num
  have hauth10 : auth_score l = 10 := by
    unfold auth_score
    rw [hauth]
    norm_num
  have hverif : verified_bonus l = 5 := by
    unfold verified_bonus
    rw [hver]
    simp
  have hbonus : price_drop_bonus l = 0 := by
    unfold price_drop_bonus
    rw [horig]
    simp [truthyQ]
  have htotal : rank_score batch now heat l = 25 := by
    unfold rank_score
    rw [heng, hdem, hfresh, hauth10, hverif, hbonus]
    norm_num
  refine ⟨heng, hdem, hfresh, hauth10, hverif, hbonus, htotal, ?_⟩
  unfold compute_listing_rankings
  exact List.mem_map.mpr ⟨l, hmem, by rw [htotal]⟩

/-- C3 witness: a singleton batch holding the scenario listing. -/
theorem c3_scenario_rank_score_25_witness :
    rank_score
      [{ baseListing with authenticity_score := 100, is_verified := true }] 0
      (fun _ => none)
      { baseListing with authenticity_score := 100, is_verified := true }
      = 25 := by
  have h := c3_scenario_rank_score_25
    [{ baseListing with authenticity_score := 100, is_verified := true }] 0
    (fun _ => none)
    { baseListing with authenticity_score := 100, is_verified := true }
    (by simp) rfl rfl rfl rfl rfl rfl rfl rfl
  exact h.2.2.2.2.2.2.1

/-- Default H3 resolution (h3_geo.py line 17). -/
def DEFAULT_RESOLUTION : Nat := 9

/-- The RADIUS_TO_RESOLUTION dict (h3_geo.py lines 20 to 26). -/
def RADIUS_TO_RESOLUTION (r : Rat) : Option Nat :=
  if r = 1/4 then some 9
  else if r = 1/2 then some 9
  else if r = 1 then some 8
  else if r = 3 then some 7
  else if r = 5 then some 7
  else none

/-- The RADIUS_TO_KRING dict (h3_geo.py lines 29 to 35). -/
def RADIUS_TO_KRING (r : Rat) : Option Int :=
  if r = 1/4 then some 0
  else if r = 1/2 then some 1
  else if r = 1 then some 3
  else if r = 3 then some 8
  else if r = 5 then some 13
  else none

/-- Python int() on a float: truncation toward zero. -/
def pyInt (q : Rat) : Int :=
  if 0 ≤ q then ⌊q⌋ else -⌊-q⌋

/-- The k-ring size chosen by get_radius_hexes (h3_geo.py line 102):
dict lookup with fallback int(radius_miles * 2.5). -/
def kringForRadius (r : Rat) : Int :=
  match RADIUS_TO_KRING r with
  | some k => k
  | none => pyInt (r * (5/2))

/-- get_radius_hexes (h3_geo.py lines 80 to 105), abstracted over the H3
library: geo_to_h3 places the center at the resolution argument and
k_ring expands it by the radius-derived k.  The resolution argument is
explicit here; every caller in the repository leaves it at
DEFAULT_RESOLUTION. -/
def get_radius_hexes {Cell : Type} (geo_to_h3 : Rat → Rat → Nat → Cell)
    (k_ring : Cell → Int → List Cell) (lat lng radius_miles : Rat)
    (resolution : Nat) : List Cell :=
  k_ring (geo_to_h3 lat lng resolution) (kringForRadius radius_miles)

/-- get_resolution_for_radius (h3_geo.py lines 280 to 297). -/
def get_resolution_for_radius (r : Rat) : Nat :=
  if r ≤ 1/2 then 9
  else if r ≤ 3/2 then 8
  else if r ≤ 5 then 7
  else 6

/-- The keys of the radius lookup tables, in table order. -/
def bracketKeys : List Rat := [1/4, 1/2, 1, 3, 5]

/-- Absolute distance between two rationals, written without abs so that
concrete instances evaluate by norm_num. -/
def ratDist (a b : Rat) : Rat := if a ≤ b then b - a else a - b

/-- Modelled from the spec claim C6 (which places itself outside the
code): the resolution of the nearest table bracket, used by the claimed
extrapolation for radii outside the table. -/
def specNearestBracketResolution (r : Rat) : Nat :=
  let nearest := bracketKeys.foldl
    (fun best k => if ratDist r k < ratDist r best then k else best) (1/4)
  (RADIUS_TO_RESOLUTION nearest).getD DEFAULT_RESOLUTION

/-- C6: the claim says a radius outside the table extrapolates at the
nearest bracket's resolution, and that radius 3.0 yields its disk at
resolution 7.  Counterexample: radius 6 is outside the table, its nearest
bracket is 5 miles with resolution 7, yet get_resolution_for_radius
returns 6; and with the cell type instantiated so that the center records
the resolution it was computed at, get_radius_hexes at radius 3 with the
default resolution argument builds the disk at resolution 9, not 7. -/
theorem c6_radius_resolution_counterexample :
    get_resolution_for_radius 6 = 6 ∧
    specNearestBracketResolution 6 = 7 ∧
    (6 : Nat) ≠ 7 ∧
    get_radius_hexes (fun _ _ res => res) (fun c _ => [c]) 0 0 3
      DEFAULT_RESOLUTION = [9] ∧
    ([9] : List Nat) ≠ [7] := by
  refine ⟨?_, ?_, by norm_num, ?_, by simp⟩
  · norm_num [get_resolution_for_radius]
  · norm_num [specNearestBracketResolution, bracketKeys, RADIUS_TO_RESOLUTION,
      ratDist, DEFAULT_RESOLUTION, List.foldl]
  · norm_num [get_radius_hexes, DEFAULT_RESOLUTION]

/-- C6 (amended): the k selection follows the fixed table (0.25mi to k=0,
0.5mi to k=1, 1mi to k=3, 3mi to k=8, 5mi to k=13) with fallback
int(radius times 2.5) outside it; get_resolution_for_radius maps by the
brackets radius at most 0.5 to 9, at most 1.5 to 8, at most 5 to 7, else
6, agreeing with the table at its keys; but get_radius_hexes always
builds the disk at its resolution argument (left at the default 9 by
every caller) independent of the radius, so radius 0.25 yields only the
center cell at resolution 9 and radius 3.0 yields the k=8 disk at
resolution 9. -/
theorem c6_amended_radius_expansion {Cell : Type}
    (geo_to_h3 : Rat → Rat → Nat → Cell) (k_ring : Cell → Int → List Cell)
    (lat lng r : Rat) :
    (kringForRadius (1/4) = 0 ∧ kringForRadius (1/2) = 1 ∧
      kringForRadius 1 = 3 ∧ kringForRadius 3 = 8 ∧ kringForRadius 5 = 13) ∧
    (RADIUS_TO_KRING r = none → kringForRadius r = pyInt (r * (5/2))) ∧
    (get_resolution_for_radius (1/4) = 9 ∧ get_resolution_for_radius (1/2) = 9 ∧
      get_resolution_for_radius 1 = 8 ∧ get_resolution_for_radius 3 = 7 ∧
      get_resolution_for_radius 5 = 7) ∧
    get_radius_hexes geo_to_h3 k_ring lat lng r DEFAULT_RESOLUTION
      = k_ring (geo_to_h3 lat lng 9) (kringForRadius r) ∧
    (k_ring (geo_to_h3 lat lng 9) 0 = [geo_to_h3 lat lng 9] →
      get_radius_hexes geo_to_h3 k_ring lat lng (1/4) DEFAULT_RESOLUTION
        = [geo_to_h3 lat lng 9]) := by
  refine ⟨by refine ⟨?_, ?_, ?_, ?_, ?_⟩ <;>
      norm_num [kringForRadius, RADIUS_TO_KRING], ?_,
    by refine ⟨?_, ?_, ?_, ?_, ?_⟩ <;> norm_num [get_resolution_for_radius],
    rfl, ?_⟩
  · intro h
    unfold kringForRadius
    rw [h]
  · intro h
    have hk : kringForRadius (1/4) = 0 := by
      norm_num [kringForRadius, RADIUS_TO_KRING]
    unfold get_radius_hexes
    rw [hk]
    exact h

/-- C6 (amended) witness: concrete instantiation of the abstract H3
library discharging the hypotheses. -/
theorem c6_amended_radius_expansion_witness :
    (RADIUS_TO_KRING 2 = none → kringForRadius 2 = pyInt (2 * (5/2))) ∧
    kringForRadius 2 = 5 ∧
    get_radius_hexes (fun _ _ res => res) (fun c k => List.replicate (1 + k.toNat) c)
      0 0 (1/4) DEFAULT_RESOLUTION = [9] := by
  have h := c6_amended_radius_expansion
    (fun _ _ res => res) (fun c k => List.replicate (1 + k.toNat) c) 0 0 2
  refine ⟨h.2.1, ?_, ?_⟩
  · rw [h.2.1 (by norm_num [RADIUS_TO_KRING])]
    norm_num [pyInt]
  · have h2 := c6_amended_radius_expansion
      (fun _ _ res => res) (fun c k => List.replicate (1 + k.toNat) c) 0 0 (1/4)
    exact h2.2.2.2.2 (by norm_num)

/-- A UserWishlist row (trade_match.py lines 284 to 325), restricted to
the columns matches_listing reads. -/
structure UserWishlist where
  sku : Option String
  brand : Option String
  size : Option String
  size_flexible : Bool
  max_price : Option Rat
  min_condition : Option String
  deriving DecidableEq, Repr

/-- Uppercasing of an optional string; only applied under guards that
ensure the value is present. -/
def upperO (o : Option String) : String := (o.getD "").toUpper

/-- The ordered condition scale of matches_listing (trade_match.py line
362), best first. -/
def condition_order : List String :=
  ["DS", "VNDS", "EXCELLENT", "GOOD", "FAIR", "BEAT"]

/-- Python condition_order.index, returning none where Python raises
ValueError. -/
def condIndex (s : String) : Option Nat :=
  condition_order.findIdx? (fun x => x = s)

/-- The SKU check of matches_listing (trade_match.py lines 330 to 332):
constrains only when both SKUs are truthy. -/
def sku_ok (w : UserWishlist) (l : Listing) : Bool :=
  !(truthyS w.sku && truthyS l.sku) || (upperO w.sku == upperO l.sku)

/-- The brand check of matches_listing (trade_match.py lines 335 to 337). -/
def brand_ok (w : UserWishlist) (l : Listing) : Bool :=
  !(truthyS w.brand && truthyS l.brand) || (upperO w.brand == upperO l.brand)

/-- The size check of matches_listing (trade_match.py lines 340 to 353):
exact match, or within half a size when size_flexible and both sizes
parse as floats (parse stands for Python float(), none where it raises
ValueError); on a parse failure the flexible path falls back to exact
equality. -/
def size_ok (parse : String → Option Rat) (w : UserWishlist) (l : Listing) :
    Bool :=
  if truthyS w.size && truthyS l.size then
    if !w.size_flexible then w.size == l.size
    else
      match parse (w.size.getD ""), parse (l.size.getD "") with
      | some want_size, some have_size => decide (|want_size - have_size| ≤ 1/2)
      | _, _ => w.size == l.size
  else true

/-- The price check of matches_listing (trade_match.py lines 356 to 357):
constrains only when both max_price and price are truthy. -/
def price_ok (w : UserWishlist) (l : Listing) : Bool :=
  if truthyQ w.max_price && truthyQ l.price then
    decide (l.price.getD 0 ≤ w.max_price.getD 0)
  else true

/-- The condition check of matches_listing (trade_match.py lines 361 to
369): a larger index is a worse condition; an index lookup failure on
either side is swallowed (no constraint). -/
def cond_ok (w : UserWishlist) (l : Listing) : Bool :=
  if truthyS w.min_condition && truthyS l.condition then
    match condIndex (w.min_condition.getD ""), condIndex (l.condition.getD "") with
    | some min_idx, some listing_idx => decide (listing_idx ≤ min_idx)
    | _, _ => true
  else true

/-- UserWishlist.matches_listing (trade_match.py lines 327 to 371): the
sequential early-return checks, as a conjunction. -/
def matches_listing (parse : String → Option Rat) (w : UserWishlist)
    (l : Listing) : Bool :=
  sku_ok w l && brand_ok w l && size_ok parse w l && price_ok w l && cond_ok w l

/-- Modelled from the spec claim C8 (reading "present" as an existing
value): every specified wishlist field must match, with the price clause
demanding listing price at most max_price whenever both are present. -/
def specMatchesListing (parse : String → Option Rat) (w : UserWishlist)
    (l : Listing) : Prop :=
  (∀ s t, w.sku = some s → l.sku = some t → s.toUpper = t.toUpper) ∧
  (∀ s t, w.brand = some s → l.brand = some t → s.toUpper = t.toUpper) ∧
  (∀ s t, w.size = some s → l.size = some t →
    if w.size_flexible then
      (match parse s, parse t with
        | some a, some b => |a - b| ≤ 1/2
        | _, _ => s = t)
    else s = t) ∧
  (∀ p m, w.max_price = some m → l.price = some p → p ≤ m) ∧
  (∀ s t mi li, w.min_condition = some s → l.condition = some t →
    condIndex s = some mi → condIndex t = some li → li ≤ mi)

/-- The concrete wishlist of the C8 counterexample: only max_price is
specified, with the legal value 0. -/
def wZero : UserWishlist :=
  { sku := none, brand := none, size := none, size_flexible := false,
    max_price := some 0, min_condition := none }

/-- C8: the claim requires the listing price to stay at or below a
specified max_price.  Counterexample: max_price 0 is a specified value,
but Python truthiness (if self.max_price and listing.price) skips the
check, so a 50-priced listing matches although 50 exceeds 0. -/
theorem c8_matches_listing_counterexample :
    matches_listing (fun _ => none) wZero
      { baseListing with price := some 50 } = true ∧
    ¬ specMatchesListing (fun _ => none) wZero
      { baseListing with price := some 50 } := by
  constructor
  · rfl
  · intro h
    have := h.2.2.2.1 50 0 rfl rfl
    norm_num at this

/-- Modelled from the spec claim C8 as amended: each constraint applies
only when the wishlist field and the listing field are both truthy
(present, nonempty, nonzero), the flexible size comparison falls back to
exact equality when either size fails to parse, and condition constraints
apply only when both conditions appear on the ordered scale. -/
def amendedMatchesListing (parse : String → Option Rat) (w : UserWishlist)
    (l : Listing) : Prop :=
  (truthyS w.sku = true → truthyS l.sku = true → upperO w.sku = upperO l.sku) ∧
  (truthyS w.brand = true → truthyS l.brand = true →
    upperO w.brand = upperO l.brand) ∧
  (truthyS w.size = true → truthyS l.size = true →
    if w.size_flexible then
      (match parse (w.size.getD ""), parse (l.size.getD "") with
        | some a, some b => |a - b| ≤ 1/2
        | _, _ => w.size = l.size)
    else w.size = l.size) ∧
  (truthyQ w.max_price = true → truthyQ l.price = true →
    l.price.getD 0 ≤ w.max_price.getD 0) ∧
  (truthyS w.min_condition = true → truthyS l.condition = true →
    ∀ mi li, condIndex (w.min_condition.getD "") = some mi →
      condIndex (l.condition.getD "") = some li → li ≤ mi)

/-- C8 (amended): matches_listing returns True exactly when every
wishlist constraint whose fields are truthy on both sides is satisfied:
case-insensitive SKU and brand equality, exact size unless size_flexible
permits a parsed difference of at most 0.5 (exact equality when a size
does not parse), listing price at most max_price when both prices are
truthy, and condition at least as good as min_condition on the scale
DS, VNDS, EXCELLENT, GOOD, FAIR, BEAT when both conditions are on it;
absent or falsy fields impose no constraint. -/
theorem c8_amended_matches_listing (parse : String → Option Rat)
    (w : UserWishlist) (l : Listing) :
    matches_listing parse w l = true ↔ amendedMatchesListing parse w l := by
  unfold matches_listing amendedMatchesListing
  simp only [Bool.and_eq_true]
  constructor
  · rintro ⟨⟨⟨⟨h1, h2⟩, h3⟩, h4⟩, h5⟩
    refine ⟨?_, ?_, ?_, ?_, ?_⟩
    · intro hw hl
      unfold sku_ok at h1
      rw [hw, hl] at h1
      simpa using h1
    · intro hw hl
      unfold brand_ok at h2
      rw [hw, hl] at h2
      simpa using h2
    · intro hw hl
      unfold size_ok at h3
      rw [hw, hl] at h3
      simp only [Bool.and_self, if_true] at h3
      by_cases hf : w.size_flexible
      · rw [hf] at h3
        simp only [hf, if_true]
        simp only [Bool.not_true, Bool.false_eq_true, if_false] at h3
        rcases hpw : parse (w.size.getD "") with _ | a <;>
          rcases hpl : parse (l.size.getD "") with _ | b <;>
            rw [hpw, hpl] at h3 <;> simpa using h3
      · simp only [Bool.not_eq_true] at hf
        rw [hf] at h3
        simp only [hf, Bool.false_eq_true, if_false]
        simpa using h3
    · intro hw hl
      unfold price_ok at h4
      rw [hw, hl] at h4
      simpa using h4
    · intro hw hl mi li hmi hli
      unfold cond_ok at h5
      rw [hw, hl, hmi, hli] at h5
      simpa using h5
  · rintro ⟨h1, h2, h3, h4, h5⟩
    refine ⟨⟨⟨⟨?_, ?_⟩, ?_⟩, ?_⟩, ?_⟩
    · unfold sku_ok
      rcases hw : truthyS w.sku with _ | _
      · simp
      · rcases hl : truthyS l.sku with _ | _
        · simp
        · simpa using h1 hw hl
    · unfold brand_ok
      rcases hw : truthyS w.brand with _ | _
      · simp
      · rcases hl : truthyS l.brand with _ | _
        · simp
        · simpa using h2 hw hl
    · unfold size_ok
      rcases hw : truthyS w.size with _ | _
      · simp
      · rcases hl : truthyS l.size with _ | _
        · simp
        · have h3s := h3 hw hl
          simp only [Bool.and_self, if_true]
          by_cases hf : w.size_flexible
          · rw [hf]
            simp only [hf, if_true] at h3s
            simp only [Bool.not_true, Bool.false_eq_true, if_false]
            rcases hpw : parse (w.size.getD "") with _ | a <;>
              rcases hpl : parse (l.size.getD "") with _ | b <;>
                rw [hpw, hpl] at h3s <;> simpa using h3s
          · simp only [Bool.not_eq_true] at hf
            rw [hf]
            simp only [hf, Bool.false_eq_true, if_false] at h3s
            simpa using h3s
    · unfold price_ok
      rcases hw : truthyQ w.max_price with _ | _
      · simp
      · rcases hl : truthyQ l.price with _ | _
        · simp
        · simpa using h4 hw hl
    · unfold cond_ok
      rcases hw : truthyS w.min_condition with _ | _
      · simp
      · rcases hl : truthyS l.condition with _ | _
        · simp
        · simp only [Bool.and_self, if_true]
          rcases hmi : condIndex (w.min_condition.getD "") with _ | mi
          · simp
          · rcases hli : condIndex (l.condition.getD "") with _ | li
            · simp
            · simpa using h5 hw hl mi li hmi hli

/-- The concrete wishlist of the C8 witness: a 200 price ceiling. -/
def wCeiling : UserWishlist :=
  { sku := none, brand := none, size := none, size_flexible := false,
    max_price := some 200, min_condition := none }

/-- The concrete listing of the C8 witness. -/
def lPriced150 : Listing := { baseListing with price := some 150 }

/-- C8 (amended) witness: a wishlist with only a 200 price ceiling
matches a listing priced 150, through the amended clauses. -/
theorem c8_amended_matches_listing_witness :
    matches_listing (fun _ => none) wCeiling lPriced150 = true := by
  apply (c8_amended_matches_listing (fun _ => none) wCeiling lPriced150).mpr
  refine ⟨?_, ?_, ?_, ?_, ?_⟩
  · intro h
    simp [wCeiling, truthyS] at h
  · intro h
    simp [wCeiling, truthyS] at h
  · intro h
    simp [wCeiling, truthyS] at h
  · intro _ _
    show (lPriced150.price.getD 0 : Rat) ≤ wCeiling.max_price.getD 0
    simp only [wCeiling, lPriced150, Option.getD_some]
    norm_num
  · intro h
    simp [wCeiling, truthyS] at h

/-- A ListingSave row (listing.py lines 267 to 284). -/
structure ListingSave where
  user_id : Nat
  listing_id : Nat
  deriving DecidableEq, Repr

/-- The database state the discovery pass reads and writes. -/
structure World where
  listings : List Listing
  saves : List ListingSave
  trade_matches : List TradeMatch

/-- The active trade-eligible filter of find_trade_matches (feed_tasks.py
lines 320 to 333): status ACTIVE, trade_intent TRADE or BOTH. -/
def tradeEligible (l : Listing) : Bool :=
  l.status = LStatus.active
    && (l.trade_intent = TIntent.trade || l.trade_intent = TIntent.both)

/-- The locality computation of find_trade_matches (feed_tasks.py lines
361 to 368): max(0, 100 - 10 x grid distance), defaulting to 50 when the
h3 distance lookup raises.  The h3 library distance is a parameter
returning none where Python raises. -/
def localityScoreOf (d : Option Nat) : Int :=
  match d with
  | some dist => max 0 (100 - 10 * (dist : Int))
  | none => 50

/-- The postgres array containment check of the dedup query
(feed_tasks.py lines 355 to 357): both listing ids appear among the
match's listing_ids. -/
def coversB (m : TradeMatch) (a b : Nat) : Bool :=
  m.listing_ids.contains a && m.listing_ids.contains b

/-- Match construction of find_trade_matches (feed_tasks.py lines 360 to
391): create_two_way, then match_score = locality x 0.5, and when both
prices are truthy the balance term min/max of the prices is stored and
adds balance x 50 to the score. -/
def mkTwoWayMatch (now : Rat) (dist : Nat → Nat → Option Nat) (u : Nat)
    (user_offers wanted : Listing) : TradeMatch :=
  let locality_score := localityScoreOf (dist user_offers.h3_index wanted.h3_index)
  let base := TradeMatch.create_two_way now u wanted.user_id
    user_offers.id wanted.id user_offers.title wanted.title
    (if locality_score > 80 then some user_offers.h3_index else none)
    locality_score none
  let scored := { base with match_score := (locality_score : Rat) * (1/2) }
  if truthyQ user_offers.price ∧ truthyQ wanted.price then
    let pa := user_offers.price.getD 0
    let pb := wanted.price.getD 0
    let bal := min pa pb / max pa pb
    { scored with value_balance := bal, match_score := scored.match_score + bal * 50 }
  else scored

/-- The inner loop of find_trade_matches (feed_tasks.py lines 336 to
393) over one user's saved listings: skip own listings, find the first
save by the wanted listing's owner of one of the user's listings, fetch
that listing, skip when a match already covers the pair (the accumulator
holds the committed matches plus those created earlier in the pass, as
the session autoflushes before each query), else append a new match. -/
def processWanteds (now : Rat) (dist : Nat → Nat → Option Nat)
    (listings : List Listing) (saves : List ListingSave) (u : Nat)
    (user_listings : List Listing) :
    List Listing → List TradeMatch → List TradeMatch
  | [], acc => acc
  | wanted :: ws, acc =>
    let acc2 :=
      if wanted.user_id = u then acc
      else
        match saves.find? (fun s => s.user_id = wanted.user_id
            && (user_listings.map (fun x => x.id)).contains s.listing_id) with
        | none => acc
        | some s =>
          match listings.find? (fun l => l.id = s.listing_id) with
          | none => acc
          | some user_offers =>
            match acc.find? (fun m => coversB m user_offers.id wanted.id) with
            | some _ => acc
            | none => acc ++ [mkTwoWayMatch now dist u user_offers wanted]
    processWanteds now dist listings saves u user_listings ws acc2

/-- The outer loop of find_trade_matches (feed_tasks.py lines 315 to
393): per user, the user's active trade listings and active trade-listed
saves, then the inner loop. -/
def processUsers (now : Rat) (dist : Nat → Nat → Option Nat)
    (listings : List Listing) (saves : List ListingSave) :
    List Nat → List TradeMatch → List TradeMatch
  | [], acc => acc
  | u :: us, acc =>
    let user_listings := listings.filter (fun l => l.user_id = u && tradeEligible l)
    let saved_listings := listings.filter (fun l => tradeEligible l
      && saves.any (fun s => s.user_id = u && s.listing_id = l.id))
    processUsers now dist listings saves us
      (processWanteds now dist listings saves u user_listings saved_listings acc)

/-- The discovery pass find_trade_matches (feed_tasks.py lines 276 to
406) over the users it selects (a given user, or those with trade-intent
listings), returning the match table after the pass. -/
def find_trade_matches (now : Rat) (dist : Nat → Nat → Option Nat)
    (w : World) (users : List Nat) : List TradeMatch :=
  processUsers now dist w.listings w.saves users w.trade_matches

/-- The number of non-terminal matches covering an unordered listing
pair. -/
def activePairCount (ms : List TradeMatch) (a b : Nat) : Nat :=
  ms.countP (fun m => !(terminalStatus m.status) && coversB m a b)

/-- At most one non-terminal match covers any unordered listing pair. -/
def atMostOneActivePerPair (ms : List TradeMatch) : Prop :=
  ∀ a b : Nat, a ≠ b → activePairCount ms a b ≤ 1

/-- The created match records exactly the two listing ids of the pair. -/
theorem mkTwoWayMatch_listing_ids (now : Rat) (dist : Nat → Nat → Option Nat)
    (u : Nat) (uo wanted : Listing) :
    (mkTwoWayMatch now dist u uo wanted).listing_ids = [uo.id, wanted.id] := by
  unfold mkTwoWayMatch
  by_cases h : truthyQ uo.price ∧ truthyQ wanted.price <;>
    simp [h, TradeMatch.create_two_way]

/-- A created match starts in status SUGGESTED. -/
theorem mkTwoWayMatch_status (now : Rat) (dist : Nat → Nat → Option Nat)
    (u : Nat) (uo wanted : Listing) :
    (mkTwoWayMatch now dist u uo wanted).status = MStatus.suggested := by
  unfold mkTwoWayMatch
  by_cases h : truthyQ uo.price ∧ truthyQ wanted.price <;>
    simp [h, TradeMatch.create_two_way]

/-- Unfolding the containment check into memberships. -/
theorem coversB_eq_mem (m : TradeMatch) (a b : Nat) :
    coversB m a b = true ↔ a ∈ m.listing_ids ∧ b ∈ m.listing_ids := by
  unfold coversB
  rw [Bool.and_eq_true]
  constructor
  · exact fun h => ⟨List.elem_iff.mp h.1, List.elem_iff.mp h.2⟩
  · exact fun h => ⟨List.elem_iff.mpr h.1, List.elem_iff.mpr h.2⟩

/-- Appending a two-listing match whose pair no accumulated match covers
preserves the at-most-one-active-match-per-pair invariant. -/
theorem append_keeps_atMostOne (acc : List TradeMatch) (m0 : TradeMatch)
    (a0 b0 : Nat) (hids : m0.listing_ids = [a0, b0])
    (hno : ∀ m ∈ acc, coversB m a0 b0 = false)
    (hinv : atMostOneActivePerPair acc) :
    atMostOneActivePerPair (acc ++ [m0]) := by
  intro a b hab
  unfold activePairCount
  rw [List.countP_append]
  by_cases hm : (!(terminalStatus m0.status) && coversB m0 a b) = true
  · have hcov : coversB m0 a b = true := ((Bool.and_eq_true _ _).mp hm).2
    have hmem := (coversB_eq_mem m0 a b).mp hcov
    rw [hids] at hmem
    obtain ⟨ha, hb⟩ := hmem
    simp only [List.mem_cons, List.not_mem_nil, or_false] at ha hb
    have hkey : ∀ m ∈ acc, coversB m a b = false := by
      intro m hm2
      have h0 := hno m hm2
      rcases ha with ha | ha <;> rcases hb with hb | hb
      · exact absurd (ha.trans hb.symm) hab
      · subst ha; subst hb; exact h0
      · subst ha; subst hb
        unfold coversB at h0 ⊢
        rw [Bool.and_comm]
        exact h0
      · exact absurd (ha.trans hb.symm) hab
    have hzero : acc.countP (fun m => !(terminalStatus m.status) && coversB m a b)
        = 0 := by
      rw [List.countP_eq_zero]
      intro m hm2
      simp [hkey m hm2]
    rw [hzero]
    simp [List.countP_cons, hm]
  · have h1 : List.countP (fun m => !(terminalStatus m.status) && coversB m a b)
        [m0] = 0 := by
      rw [List.countP_eq_zero]
      intro m hm2
      simp only [List.mem_singleton] at hm2
      subst hm2
      simpa using hm
    rw [h1]
    simpa using hinv a b hab

/-- Behavior of the inner discovery loop: the accumulator only grows,
each appended match is fresh SUGGESTED over a pair no earlier match
covers, and the per-pair invariant is preserved. -/
theorem processWanteds_spec (now : Rat) (dist : Nat → Nat → Option Nat)
    (listings : List Listing) (saves : List ListingSave) (u : Nat)
    (user_listings : List Listing) :
    ∀ (ws : List Listing) (acc : List TradeMatch),
      atMostOneActivePerPair acc →
      ∃ extra, processWanteds now dist listings saves u user_listings ws acc
          = acc ++ extra ∧
        atMostOneActivePerPair (acc ++ extra) ∧
        ∀ m ∈ extra, m.status = MStatus.suggested ∧
          ∃ a b, m.listing_ids = [a, b] ∧
            ∀ m2 ∈ acc, coversB m2 a b = false := by
  intro ws
  induction ws with
  | nil =>
    intro acc hinv
    exact ⟨[], by simp [processWanteds], by simpa using hinv, by simp⟩
  | cons wanted ws ih =>
    intro acc hinv
    by_cases hown : wanted.user_id = u
    · obtain ⟨extra, he, hi, hp⟩ := ih acc hinv
      refine ⟨extra, ?_, hi, hp⟩
      rw [show processWanteds now dist listings saves u user_listings
            (wanted :: ws) acc
          = processWanteds now dist listings saves u user_listings ws acc by
        simp [processWanteds, hown]]
      exact he
    · rcases hfind : saves.find? (fun s => s.user_id = wanted.user_id
          && (user_listings.map (fun x => x.id)).contains s.listing_id) with _ | s
      · obtain ⟨extra, he, hi, hp⟩ := ih acc hinv
        refine ⟨extra, ?_, hi, hp⟩
        rw [show processWanteds now dist listings saves u user_listings
              (wanted :: ws) acc
            = processWanteds now dist listings saves u user_listings ws acc by
          simp only [processWanteds]
          rw [if_neg hown]
          simp only [hfind]]
        exact he
      · rcases hoff : listings.find? (fun l => l.id = s.listing_id) with _ | uo
        · obtain ⟨extra, he, hi, hp⟩ := ih acc hinv
          refine ⟨extra, ?_, hi, hp⟩
          rw [show processWanteds now dist listings saves u user_listings
                (wanted :: ws) acc
              = processWanteds now dist listings saves u user_listings ws acc by
            simp only [processWanteds]
            rw [if_neg hown]
            simp only [hfind, hoff]]
          exact he
        · rcases hex : acc.find? (fun m => coversB m uo.id wanted.id) with _ | mex
          · have hno : ∀ m2 ∈ acc, coversB m2 uo.id wanted.id = false := by
              intro m2 hm2
              have := List.find?_eq_none.mp hex m2 hm2
              simpa using this
            have hids := mkTwoWayMatch_listing_ids now dist u uo wanted
            have hinv2 := append_keeps_atMostOne acc
              (mkTwoWayMatch now dist u uo wanted) uo.id wanted.id hids hno hinv
            obtain ⟨extra, he, hi, hp⟩ :=
              ih (acc ++ [mkTwoWayMatch now dist u uo wanted]) hinv2
            refine ⟨mkTwoWayMatch now dist u uo wanted :: extra, ?_, ?_, ?_⟩
            · rw [show processWanteds now dist listings saves u user_listings
                    (wanted :: ws) acc
                  = processWanteds now dist listings saves u user_listings ws
                      (acc ++ [mkTwoWayMatch now dist u uo wanted]) by
                simp only [processWanteds]
                rw [if_neg hown]
                simp only [hfind, hoff, hex]]
              rw [he, List.append_assoc]
              rfl
            · rw [show acc ++ mkTwoWayMatch now dist u uo wanted :: extra
                  = (acc ++ [mkTwoWayMatch now dist u uo wanted]) ++ extra by
                simp]
              exact hi
            · intro m hm
              rcases List.mem_cons.mp hm with hm | hm
              · subst hm
                exact ⟨mkTwoWayMatch_status now dist u uo wanted,
                  uo.id, wanted.id, hids, hno⟩
              · obtain ⟨hst, a, b, hab, hnc⟩ := hp m hm
                exact ⟨hst, a, b, hab,
                  fun m2 hm2 => hnc m2 (List.mem_append_left _ hm2)⟩
          · obtain ⟨extra, he, hi, hp⟩ := ih acc hinv
            refine ⟨extra, ?_, hi, hp⟩
            rw [show processWanteds now dist listings saves u user_listings
                  (wanted :: ws) acc
                = processWanteds now dist listings saves u user_listings ws acc by
              simp only [processWanteds]
              rw [if_neg hown]
              simp only [hfind, hoff, hex]]
            exact he

/-- Behavior of the outer discovery loop: composition of the inner-loop
facts over all processed users. -/
theorem processUsers_spec (now : Rat) (dist : Nat → Nat → Option Nat)
    (listings : List Listing) (saves : List ListingSave) :
    ∀ (users : List Nat) (acc : List TradeMatch),
      atMostOneActivePerPair acc →
      ∃ extra, processUsers now dist listings saves users acc = acc ++ extra ∧
        atMostOneActivePerPair (acc ++ extra) ∧
        ∀ m ∈ extra, m.status = MStatus.suggested ∧
          ∃ a b, m.listing_ids = [a, b] ∧
            ∀ m2 ∈ acc, coversB m2 a b = false := by
  intro users
  induction users with
  | nil =>
    intro acc hinv
    exact ⟨[], by simp [processUsers], by simpa using hinv, by simp⟩
  | cons u us ih =>
    intro acc hinv
    obtain ⟨e1, he1, hi1, hp1⟩ := processWanteds_spec now dist listings saves u
      (listings.filter (fun l => l.user_id = u && tradeEligible l))
      (listings.filter (fun l => tradeEligible l
        && saves.any (fun s => s.user_id = u && s.listing_id = l.id)))
      acc hinv
    obtain ⟨e2, he2, hi2, hp2⟩ := ih (acc ++ e1) hi1
    refine ⟨e1 ++ e2, ?_, ?_, ?_⟩
    · rw [show processUsers now dist listings saves (u :: us) acc
          = processUsers now dist listings saves us
              (processWanteds now dist listings saves u
                (listings.filter (fun l => l.user_id = u && tradeEligible l))
                (listings.filter (fun l => tradeEligible l
                  && saves.any (fun s => s.user_id = u && s.listing_id = l.id)))
                acc) by
        simp [processUsers]]
      rw [he1, he2, List.append_assoc]
    · rw [← List.append_assoc]
      exact hi2
    · intro m hm
      rcases List.mem_append.mp hm with hm | hm
      · exact hp1 m hm
      · obtain ⟨hst, a, b, hab, hnc⟩ := hp2 m hm
        exact ⟨hst, a, b, hab,
          fun m2 hm2 => hnc m2 (List.mem_append_left _ hm2)⟩

/-- C2 (amended): a pass creates a TWO_WAY match for a pair only when no
existing match at all (in particular no non-terminal one) covers the
unordered pair, every created match is fresh SUGGESTED, and the
at-most-one-active-match-per-unordered-pair invariant is preserved by
every pass. -/
theorem c2_amended_discovery_dedup (now : Rat) (dist : Nat → Nat → Option Nat)
    (w : World) (users : List Nat)
    (hinv : atMostOneActivePerPair w.trade_matches) :
    atMostOneActivePerPair (find_trade_matches now dist w users) ∧
    ∃ created, find_trade_matches now dist w users = w.trade_matches ++ created ∧
      ∀ m ∈ created, m.status = MStatus.suggested ∧
        ∃ a b, m.listing_ids = [a, b] ∧
          ∀ m2 ∈ w.trade_matches,
            ¬(terminalStatus m2.status = false ∧ coversB m2 a b = true) := by
  obtain ⟨extra, he, hi, hp⟩ :=
    processUsers_spec now dist w.listings w.saves users w.trade_matches hinv
  constructor
  · unfold find_trade_matches
    rw [he]
    exact hi
  · refine ⟨extra, he, ?_⟩
    intro m hm
    obtain ⟨hst, a, b, hab, hnc⟩ := hp m hm
    refine ⟨hst, a, b, hab, ?_⟩
    intro m2 hm2 hc
    rw [hnc m2 hm2] at hc
    exact absurd hc.2 (by simp)

/-- An empty database trivially satisfies the per-pair invariant. -/
def worldEmpty : World := { listings := [], saves := [], trade_matches := [] }

/-- The grid-distance stub used by the concrete discovery scenarios:
every pair of cells at distance 0. -/
def dist0 : Nat → Nat → Option Nat := fun _ _ => some 0

/-- C2 (amended) witness: the invariant hypothesis discharged on an empty
database. -/
theorem c2_amended_discovery_dedup_witness :
    atMostOneActivePerPair worldEmpty.trade_matches ∧
    atMostOneActivePerPair (find_trade_matches 0 dist0 worldEmpty [1]) := by
  have hemp : atMostOneActivePerPair worldEmpty.trade_matches := by
    intro a b hab
    simp [worldEmpty, activePairCount]
  exact ⟨hemp, (c2_amended_discovery_dedup 0 dist0 worldEmpty [1] hemp).1⟩

/-- Listing X of the C2 counterexample: id 10, owner 1. -/
def lX : Listing :=
  { baseListing with
    id := 10,
    user_id := 1,
    title := "X",
    trade_intent := TIntent.trade }

/-- Listing X2 of the C2 counterexample: id 11, owner 1. -/
def lX2 : Listing :=
  { baseListing with
    id := 11,
    user_id := 1,
    title := "X2",
    trade_intent := TIntent.trade }

/-- Listing Y of the C2 counterexample: id 20, owner 2. -/
def lY : Listing :=
  { baseListing with
    id := 20,
    user_id := 2,
    title := "Y",
    trade_intent := TIntent.trade }

/-- Listing Y2 of the C2 counterexample: id 21, owner 2. -/
def lY2 : Listing :=
  { baseListing with
    id := 21,
    user_id := 2,
    title := "Y2",
    trade_intent := TIntent.trade }

/-- The C2 counterexample database: users 1 and 2 own two trade-eligible
listings each, user 2 saved both of user 1's listings (11 first), user 1
saved both of user 2's listings (21 first).  Every one of the four
cross-owner pairs is reciprocal. -/
def worldR : World :=
  { listings := [lX, lX2, lY, lY2],
    saves := [{ user_id := 2, listing_id := 11 },
              { user_id := 2, listing_id := 10 },
              { user_id := 1, listing_id := 21 },
              { user_id := 1, listing_id := 20 }],
    trade_matches := [] }

/-- C2: the claim says a discovery pass over random reciprocal save
relationships yields exactly one match per reciprocal pair.
Counterexample: in worldR listings 10 and 20 form a reciprocal pair
(owners differ, each saved by the other's owner, both trade eligible),
yet the pass creates three matches, none of which covers the pair 10-20:
the inner query always offers the first saved listing, which fixes
listing 11 as user 1's offer and listing 21 as user 2's offer. -/
theorem c2_reciprocal_pair_unmatched_counterexample :
    tradeEligible lX = true ∧ tradeEligible lY = true ∧
    lX.user_id = 1 ∧ lY.user_id = 2 ∧ lX.id = 10 ∧ lY.id = 20 ∧
    ({ user_id := 2, listing_id := 10 } : ListingSave) ∈ worldR.saves ∧
    ({ user_id := 1, listing_id := 20 } : ListingSave) ∈ worldR.saves ∧
    worldR.trade_matches = [] ∧
    (find_trade_matches 0 dist0 worldR [1, 2]).countP
      (fun m => coversB m 10 20) = 0 ∧
    (find_trade_matches 0 dist0 worldR [1, 2]).length = 3 := by
  refine ⟨rfl, rfl, rfl, rfl, rfl, rfl, ?_, ?_, rfl, ?_, ?_⟩ <;> decide

/-- Listing A of the C5 scenario: owner 1, priced 100. -/
def lA : Listing :=
  { baseListing with
    id := 1,
    user_id := 1,
    title := "A",
    trade_intent := TIntent.trade,
    price := some 100 }

/-- Listing B of the C5 scenario: owner 2, priced 120. -/
def lB : Listing :=
  { baseListing with
    id := 2,
    user_id := 2,
    title := "B",
    trade_intent := TIntent.trade,
    price := some 120 }

/-- The C5 scenario database: A saved by user 2, B saved by user 1, both
trade eligible, same cell. -/
def worldAB : World :=
  { listings := [lA, lB],
    saves := [{ user_id := 2, listing_id := 1 },
              { user_id := 1, listing_id := 2 }],
    trade_matches := [] }

/-- C5: the scenario pass produces exactly the single TWO_WAY match of A
for B, with locality 100 (distance 0), value balance 100/120, and match
score 0.5 x locality + 0.5 x 100 x balance; the locality default on a
failed distance lookup is 50; and the value term is omitted whenever
either listing lacks a truthy price. -/
theorem c5_two_way_scenario :
    find_trade_matches 0 dist0 worldAB [1, 2] = [mkTwoWayMatch 0 dist0 1 lA lB] ∧
    (find_trade_matches 0 dist0 worldAB [1, 2]).length = 1 ∧
    (∀ m ∈ find_trade_matches 0 dist0 worldAB [1, 2],
      m.match_type = MatchType.two_way ∧
      m.locality_score = 100 ∧
      m.value_balance = 100 / 120 ∧
      m.match_score = (1/2) * 100 + (1/2) * 100 * m.value_balance) ∧
    localityScoreOf none = 50 ∧
    (∀ (d : Nat → Nat → Option Nat) (u : Nat) (uo wtd : Listing),
      truthyQ uo.price = false ∨ truthyQ wtd.price = false →
      (mkTwoWayMatch 0 d u uo wtd).match_score
        = (localityScoreOf (d uo.h3_index wtd.h3_index) : Rat) * (1/2)) := by
  have hrun : find_trade_matches 0 dist0 worldAB [1, 2]
      = [mkTwoWayMatch 0 dist0 1 lA lB] := rfl
  have hguard : truthyQ lA.price ∧ truthyQ lB.price := by
    constructor <;> · simp only [lA, truthyQ, lB]; norm_num
  have hbal : (mkTwoWayMatch 0 dist0 1 lA lB).value_balance = 100 / 120 := by
    simp only [mkTwoWayMatch]
    rw [if_pos hguard]
    show (min ((100:Rat)) 120) / (max (100:Rat) 120) = 100 / 120
    rw [min_def, max_def]
    norm_num
  have hloc : (mkTwoWayMatch 0 dist0 1 lA lB).locality_score = 100 := by
    simp only [mkTwoWayMatch]
    rw [if_pos hguard]
    show localityScoreOf (dist0 lA.h3_index lB.h3_index) = 100
    simp only [dist0, localityScoreOf, Nat.cast_zero]
    norm_num
  have hms : (mkTwoWayMatch 0 dist0 1 lA lB).match_score
      = (1/2) * 100 + (1/2) * 100 * (100 / 120) := by
    simp only [mkTwoWayMatch]
    rw [if_pos hguard]
    show (localityScoreOf (dist0 lA.h3_index lB.h3_index) : Rat) * (1/2)
        + (min ((100:Rat)) 120) / (max (100:Rat) 120) * 50
      = (1/2) * 100 + (1/2) * 100 * (100 / 120)
    simp only [dist0, localityScoreOf, Nat.cast_zero]
    rw [min_def, max_def]
    norm_num
  refine ⟨hrun, by rw [hrun]; rfl, ?_, rfl, ?_⟩
  · intro m hm
    rw [hrun] at hm
    simp only [List.mem_singleton] at hm
    subst hm
    refine ⟨?_, hloc, hbal, ?_⟩
    · simp only [mkTwoWayMatch]
      rw [if_pos hguard]
      rfl
    · rw [hms, hbal]
  · intro d u uo wtd h
    have hng : ¬(truthyQ uo.price ∧ truthyQ wtd.price) := by
      intro hc
      rcases h with h | h
      · rw [h] at hc
        exact Bool.false_ne_true hc.1
      · rw [h] at hc
        exact Bool.false_ne_true hc.2
    simp only [mkTwoWayMatch]
    rw [if_neg hng]

/-- C5 witness: a priceless pair of listings discharges the omitted
value-term hypothesis, the score deriving from locality alone. -/
theorem c5_two_way_scenario_witness :
    (truthyQ baseListing.price = false ∨ truthyQ baseListing.price = false) ∧
    (mkTwoWayMatch 0 dist0 3 baseListing baseListing).match_score
      = (localityScoreOf (dist0 baseListing.h3_index baseListing.h3_index) : Rat)
        * (1/2) := by
  have h := (c5_two_way_scenario).2.2.2.2 dist0 3 baseListing baseListing
    (Or.inl rfl)
  exact ⟨Or.inl rfl, h⟩
